import Mathlib

/-!
Formal model of the resilient remote-invocation layer of the
Auto-Blogging-DPLUS repository: the response cache (cache_manager.py,
class CacheManager), the rate limiter / quota tracker (vertex_utils.py,
class VertexRateLimiter), the fallback planner and invocation
orchestrator (vertex_utils.py, function call_vertex_with_retry), and the
partial-JSON recovery (generator.py, method ContentGenerator._call_gemini).

Modelling conventions:
* wall-clock instants are natural numbers of seconds and calendar days are
  natural numbers, passed explicitly to every operation that reads the clock;
* Python float arithmetic on thresholds (0.95 times requests_per_day,
  elapsed times requests_per_minute over 60) is modelled by exact integer
  comparisons scaled to naturals;
* the MD5 digest computed by CacheManager._generate_key is modelled by the
  digested content string itself: the digest is applied to the single
  string "model_name" ++ ":" ++ "prompt", equal content gives equal
  digests, and distinct content is idealised to give distinct digests;
* the strict JSON parser (Python's json.loads, standard library, not
  repository code) is a parameter of the recovery model; a small
  executable parser microParse for a JSON subset instantiates it in
  concrete evaluations;
* environment initialisation and model-object construction inside
  call_vertex_with_retry are modelled as succeeding (their failure paths
  merely skip candidates and are not touched by any claim).
-/

/-! ## Response cache (cache_manager.py) -/

/-- One value of the cache dictionary: the dict written by
CacheManager.set, holding the response text and a timestamp. -/
structure CacheEntry where
  response : String
  timestamp : Nat
deriving Repr, DecidableEq

/-- The in-memory cache dictionary self.cache, modelled as an association
list with first-match lookup; insertion at the front therefore has the
overwrite semantics of Python dict assignment. -/
abbrev Cache := List (String × CacheEntry)

/-- CacheManager._generate_key: the key is the MD5 hex digest of the
single string "model_name" ++ ":" ++ "prompt"; the digest itself is
modelled by the digested content (see module docstring). -/
def generate_key (prompt model_name : String) : String :=
  model_name ++ ":" ++ prompt

/-- Lookup in the cache dictionary (Python dict .get). -/
def cacheFind : Cache → String → Option CacheEntry
  | [], _ => none
  | (k, e) :: rest, key => if k = key then some e else cacheFind rest key

/-- CacheManager.get. -/
def CacheManager.get (c : Cache) (prompt model_name : String) : Option CacheEntry :=
  cacheFind c (generate_key prompt model_name)

/-- CacheManager.set: stores the entry under the derived key (the save to
the durable file is outside the data model). -/
def CacheManager.set (c : Cache) (prompt model_name response_text : String)
    (now : Nat) : Cache :=
  (generate_key prompt model_name, ⟨response_text, now⟩) :: c

/-! ## Fallback planner (vertex_utils.py, call_vertex_with_retry) -/

/-- Python substring containment helper: does the second list start with
the first one. -/
def leadsWith : List Char → List Char → Bool
  | [], _ => true
  | _ :: _, [] => false
  | a :: as, b :: bs => a == b && leadsWith as bs

/-- Python substring containment helper: does the needle occur anywhere in
the haystack. -/
def occursIn (needle : List Char) : List Char → Bool
  | [] => leadsWith needle []
  | h :: t => leadsWith needle (h :: t) || occursIn needle t

/-- The Python expression "needle in hay" on strings. -/
def pyContains (hay needle : String) : Bool :=
  occursIn needle.data hay.data

/-- Worker for duplicate removal in first-occurrence order, the semantics
of Python's list(dict.fromkeys(lst)). -/
def dedupGo {α : Type} [DecidableEq α] (seen : List α) : List α → List α
  | [] => []
  | a :: l => if a ∈ seen then dedupGo seen l else a :: dedupGo (a :: seen) l

/-- list(dict.fromkeys(lst)): duplicates removed, first occurrence kept. -/
def dedupKeepFirst {α : Type} [DecidableEq α] (l : List α) : List α :=
  dedupGo [] l

/-- The static fallback catalog appended when the seed name contains
"flash" or "2.0" (vertex_utils.py lines 218-225). -/
def flashCatalog : List String :=
  ["gemini-2.0-flash-exp", "gemini-2.0-flash-thinking-exp",
   "gemini-1.5-flash-002", "gemini-1.5-flash-001",
   "gemini-1.5-pro-002", "gemini-1.5-pro-001"]

/-- The static fallback catalog appended when the seed name contains "pro"
(vertex_utils.py line 227). -/
def proCatalog : List String :=
  ["gemini-1.5-pro-002", "gemini-1.5-pro-001", "gemini-2.0-flash-exp"]

/-- models_to_try as built in call_vertex_with_retry lines 215-230: the
seed first, the family catalog (if any) appended, duplicates removed in
first-occurrence order. -/
def models_to_try (initial_model_name : String) : List String :=
  dedupKeepFirst
    (initial_model_name ::
      (if pyContains initial_model_name "flash" || pyContains initial_model_name "2.0" then
        flashCatalog
      else if pyContains initial_model_name "pro" then
        proCatalog
      else []))

/-- The static region list (vertex_utils.py line 232). -/
def baseRegions : List String :=
  ["us-central1", "us-east1", "europe-west1", "asia-southeast1"]

/-- regions_to_try as built in lines 232-236: the configured current
region is removed from the static list (if present) and re-inserted at
the front. -/
def regions_to_try (current_region : String) : List String :=
  current_region ::
    (if current_region ∈ baseRegions then baseRegions.erase current_region
     else baseRegions)

/-- The candidate (variant, region) pairs in the order the nested loops of
call_vertex_with_retry visit them: regions outer, models inner. -/
def candidatePairs (ms : List String) : List String → List (String × String)
  | [] => []
  | r :: rest => ms.map (fun m => (m, r)) ++ candidatePairs ms rest

/-- The full candidate list for one logical call. -/
def candidates (initial_model_name current_region : String) :
    List (String × String) :=
  candidatePairs (models_to_try initial_model_name) (regions_to_try current_region)

/-! ## Rate limiter and quota tracker (vertex_utils.py, VertexRateLimiter) -/

/-- The persisted usage log vertex_usage.json: a date and a count. -/
structure UsageLog where
  date : Nat
  count : Nat
deriving Repr, DecidableEq

/-- The mutable state of a VertexRateLimiter instance. -/
structure LimiterState where
  requests_per_minute : Nat
  requests_per_day : Nat
  min_bucket : Nat
  min_bucket_last_refill : Nat
  daily_usage : Nat
  daily_usage_date : Nat
deriving Repr, DecidableEq

/-- VertexRateLimiter.__init__ followed by _load_usage_log: the bucket
starts full, usage starts at 0 and is replaced by the persisted count
exactly when the persisted date equals today's date. -/
def initLimiter (requests_per_minute requests_per_day now today : Nat)
    (log : Option UsageLog) : LimiterState :=
  let s : LimiterState :=
    { requests_per_minute := requests_per_minute
      requests_per_day := requests_per_day
      min_bucket := requests_per_minute
      min_bucket_last_refill := now
      daily_usage := 0
      daily_usage_date := today }
  match log with
  | some l => if l.date = today then { s with daily_usage := l.count } else s
  | none => s

/-- VertexRateLimiter._save_usage_log: the record written to the log. -/
def save_usage_log (s : LimiterState) : UsageLog :=
  ⟨s.daily_usage_date, s.daily_usage⟩

/-- VertexRateLimiter._refill_minute_bucket: linear refill by elapsed
seconds, capped at capacity; the refill instant advances only when at
least one whole token accrued. -/
def refill_minute_bucket (now : Nat) (s : LimiterState) : LimiterState :=
  let elapsed := now - s.min_bucket_last_refill
  let refill_amount := elapsed * s.requests_per_minute / 60
  if refill_amount > 0 then
    { s with
      min_bucket := min s.requests_per_minute (s.min_bucket + refill_amount)
      min_bucket_last_refill := now }
  else s

/-- VertexRateLimiter._check_daily_limit: reset on a new day, then fail
exactly when the recorded usage has reached requests_per_day. -/
def check_daily_limit (today : Nat) (s : LimiterState) : Bool × LimiterState :=
  let s :=
    if today ≠ s.daily_usage_date then
      { s with daily_usage := 0, daily_usage_date := today }
    else s
  if s.daily_usage ≥ s.requests_per_day then (false, s) else (true, s)

/-- VertexRateLimiter._record_usage: reset on a new day, then increment
and persist. -/
def record_usage (today : Nat) (s : LimiterState) : LimiterState × UsageLog :=
  let s :=
    if today ≠ s.daily_usage_date then
      { s with daily_usage := 0, daily_usage_date := today }
    else s
  let s := { s with daily_usage := s.daily_usage + 1 }
  (s, save_usage_log s)

/-- VertexRateLimiter.get_daily_usage. -/
def get_daily_usage (today : Nat) (s : LimiterState) : Nat :=
  if today ≠ s.daily_usage_date then 0 else s.daily_usage

/-- The while-loop of VertexRateLimiter.acquire. Each entry of times is
the wall-clock instant of one loop iteration; start is the recorded
start_time. The returned Option Bool is the decision (none only when the
supplied instants ran out before the loop decided), the Nat counts the
time.sleep calls performed. -/
def acquireGo (today timeout start : Nat) :
    LimiterState → Nat → List Nat → Option Bool × LimiterState × Nat
  | s, sleeps, [] => (none, s, sleeps)
  | s, sleeps, now :: rest =>
    let s := refill_minute_bucket now s
    if s.min_bucket ≥ 1 then
      let s := { s with min_bucket := s.min_bucket - 1 }
      ((some true, (record_usage today s).1, sleeps))
    else if now - start ≥ timeout then
      (some false, s, sleeps)
    else
      acquireGo today timeout start s (sleeps + 1) rest

/-- VertexRateLimiter.acquire: the daily-limit check, then the waiting
loop; start_time is the first loop instant. -/
def acquire (today timeout : Nat) (times : List Nat) (s : LimiterState) :
    Option Bool × LimiterState × Nat :=
  match check_daily_limit today s with
  | (false, s) => (some false, s, 0)
  | (true, s) =>
    match times with
    | [] => (none, s, 0)
    | now :: _ => acquireGo today timeout now s 0 times

/-- A sequence of acquire calls against one limiter instance: each entry
is (today, timeout, loop instants); returns the decisions in order and
the final state. -/
def runTrace (s : LimiterState) :
    List (Nat × Nat × List Nat) → List (Option Bool) × LimiterState
  | [] => ([], s)
  | (today, timeout, times) :: rest =>
    let r := acquire today timeout times s
    let rs := runTrace r.2.1 rest
    (r.1 :: rs.1, rs.2)

/-! ## Invocation orchestrator (vertex_utils.py, call_vertex_with_retry) -/

/-- Classification of one temp_model.generate_content call, matching the
except-clauses of the attempt loop: a response with non-empty text, a
response with empty or absent text, a transient error
(ServiceUnavailable / InternalServerError / GoogleAPIError), a 429
ResourceExhausted, a 404 NotFound, or any other exception (caught by the
outer except, which advances to the next candidate). -/
inductive CallOutcome where
  | success (text : String)
  | empty
  | transient
  | resourceExhausted
  | notFound
  | other
deriving Repr, DecidableEq

/-- The shared mutable state the orchestrator threads through a call:
the global rate limiter and the response cache. -/
structure FlowState where
  limiter : LimiterState
  cache : Cache
deriving Repr, DecidableEq

/-- The manual retry loop "for attempt in range(max_retries)" of
call_vertex_with_retry (lines 278-297). Consumes one backend outcome per
generate_content call; on success the cache is populated under the key of
the model that succeeded (cache.set(prompt, m_name, text)); transient
errors retry the same candidate after a sleep; ResourceExhausted,
NotFound, empty responses and unexpected exceptions all end the loop with
no result (advancing to the next candidate). Returns the result, the
cache, and the unconsumed outcomes. -/
def attemptLoop (prompt m_name : String) (ts : Nat) :
    Cache → Nat → List CallOutcome → Option String × Cache × List CallOutcome
  | c, _, [] => (none, c, [])
  | c, 0, outs => (none, c, outs)
  | c, retries + 1, o :: rest =>
    match o with
    | .success t => (some t, CacheManager.set c prompt m_name t ts, rest)
    | .empty => (none, c, rest)
    | .transient => attemptLoop prompt m_name ts c retries rest
    | .resourceExhausted => (none, c, rest)
    | .notFound => (none, c, rest)
    | .other => (none, c, rest)

/-- One candidate (model, region) inside the nested loops: acquire with
timeout 30, then the attempt loop. The acquire loop is observed at the
single instant now (the scenarios proved below always decide at the first
iteration); an undecided acquire is propagated as a skip. -/
def tryCandidate (prompt m_name : String) (max_retries now today ts : Nat)
    (st : FlowState) (outs : List CallOutcome) :
    Option String × FlowState × List CallOutcome :=
  match acquire today 30 [now] st.limiter with
  | (some true, l, _) =>
    let r := attemptLoop prompt m_name ts st.cache max_retries outs
    (r.1, ⟨l, r.2.1⟩, r.2.2)
  | (_, l, _) => (none, ⟨l, st.cache⟩, outs)

/-- The nested region and model loops, flattened over the candidate
list; stops at the first candidate that returns a response. -/
def tryCandidates (prompt : String) (max_retries now today ts : Nat) :
    FlowState → List CallOutcome → List (String × String) →
    Option String × FlowState × List CallOutcome
  | st, outs, [] => (none, st, outs)
  | st, outs, (m, _r) :: rest =>
    let r := tryCandidate prompt m max_retries now today ts st outs
    match r.1 with
    | some t => (some t, r.2.1, r.2.2)
    | none => tryCandidates prompt max_retries now today ts r.2.1 r.2.2 rest

/-- The result of call_vertex_with_retry: a cache hit (the MockResponse
wrapping the cached response text), a fresh backend response, or None. -/
inductive FlowResult where
  | cached (text : String)
  | fresh (text : String)
  | noResult
deriving Repr, DecidableEq

/-- Python str.strip: whitespace removed from both ends. -/
def pyStrip (cs : List Char) : List Char :=
  (((cs.dropWhile fun c => c.isWhitespace).reverse.dropWhile
      fun c => c.isWhitespace)).reverse

/-- Python "full.split(chr(47))[-1]" (the model-name extraction at lines
193-195): the suffix after the last slash, the whole name when no slash
is present. -/
def lastComponent (full : String) : String :=
  ⟨(full.data.reverse.takeWhile fun c => c ≠ '/').reverse⟩

/-- call_vertex_with_retry (vertex_utils.py lines 186-300): empty-prompt
guard, cache lookup under the seed model's key, the 95-percent daily
circuit breaker (0.95 times requests_per_day, modelled exactly as
20 times usage at least 19 times ceiling), then the candidate loops. -/
def call_vertex_with_retry (full_model_name prompt : String)
    (max_retries : Nat) (current_region : String) (now today ts : Nat)
    (st : FlowState) (outs : List CallOutcome) :
    FlowResult × FlowState × List CallOutcome :=
  let initial_model_name := lastComponent full_model_name
  if pyStrip prompt.data = [] then (.noResult, st, outs)
  else
    match CacheManager.get st.cache prompt initial_model_name with
    | some e => (.cached e.response, st, outs)
    | none =>
      let daily_usage := get_daily_usage today st.limiter
      if 20 * daily_usage ≥ 19 * st.limiter.requests_per_day then
        (.noResult, st, outs)
      else
        let r := tryCandidates prompt max_retries now today ts st outs
          (candidates initial_model_name current_region)
        match r.1 with
        | some t => (.fresh t, r.2.1, r.2.2)
        | none => (.noResult, r.2.1, r.2.2)

/-! ## Partial-JSON recovery (generator.py, ContentGenerator._call_gemini) -/

/-- Worker for Python str.replace on list-of-characters text; the fuel
only makes the recursion structural and never runs out when it starts at
the text length, since every step consumes at least one character. -/
def replaceListGo (needle repl : List Char) : Nat → List Char → List Char
  | 0, cs => cs
  | _ + 1, [] => []
  | fuel + 1, c :: cs =>
    if leadsWith needle (c :: cs) then
      repl ++ replaceListGo needle repl fuel (cs.drop (needle.length - 1))
    else
      c :: replaceListGo needle repl fuel cs

/-- Python str.replace for list-of-characters text: every occurrence of
the (non-empty) needle replaced. -/
def replaceList (needle repl cs : List Char) : List Char :=
  replaceListGo needle repl cs.length cs

/-- The clean-up of _call_gemini lines 275-277: drop the code-fence
markers, then strip surrounding whitespace. -/
def cleanContent (raw : List Char) : List Char :=
  pyStrip (replaceList ("```".data) [] (replaceList ("```json".data) [] raw))

/-- The slice content[start:stop] of Python. -/
def listSlice (cs : List Char) (start stop : Nat) : List Char :=
  (cs.take stop).drop start

/-- The backward scan of _call_gemini lines 290-297: for end from
len(content)-1 down to start+1, when content[end] is a closing brace,
strictly parse content[start:end+1] with the parser P and return the
first success; none when the scan is exhausted. The argument is the
current candidate end index. -/
def recoverFrom {J : Type} (P : List Char → Option J) (cs : List Char)
    (start : Nat) : Nat → Option J
  | 0 => none
  | e + 1 =>
    if e + 1 ≤ start then none
    else
      match (if cs.getD (e + 1) ' ' = '\x7d' then listSlice cs start (e + 2) |> P else none) with
      | some j => some j
      | none => recoverFrom P cs start e

/-- The JSON-parsing tail of _call_gemini (lines 275-300), parameterised
by the strict structured parser P (Python's json.loads): clean the text,
attempt a strict parse, and on failure run the backward brace scan when
an opening brace is present. -/
def tryParseContent {J : Type} (P : List Char → Option J) (raw : List Char) :
    Option J :=
  let content := cleanContent raw
  match P content with
  | some j => some j
  | none =>
    if content.contains '\x7b' then
      recoverFrom P content (content.findIdx fun c => c = '\x7b')
        (content.length - 1)
    else none

/-! ## A small strict JSON parser

An executable strict parser for a JSON subset (objects whose values are
scalars, plus top-level scalars), standing in for Python's json.loads in
concrete evaluations. Like json.loads it rejects any trailing non-space
text, so parsing is strict. -/

/-- Scalar JSON value. -/
inductive JVal where
  | jnull
  | jbool (b : Bool)
  | jnum (n : Int)
  | jstr (s : String)
deriving Repr, DecidableEq

/-- Parsed payload: a scalar or a flat object. -/
inductive MJson where
  | scalar (v : JVal)
  | obj (kvs : List (String × JVal))
deriving Repr, DecidableEq

/-- Skip JSON whitespace. -/
def skipWs : List Char → List Char
  | [] => []
  | c :: cs =>
    if c = ' ' ∨ c = '\n' ∨ c = '\t' ∨ c = '\r' then skipWs cs else c :: cs

/-- Read a string body up to the closing quote (no escape support). -/
def takeStr : List Char → Option (List Char × List Char)
  | [] => none
  | c :: cs =>
    if c = '"' then some ([], cs)
    else
      match takeStr cs with
      | some (s, r) => some (c :: s, r)
      | none => none

/-- Read a maximal digit run. -/
def takeDigits : List Char → List Char × List Char
  | [] => ([], [])
  | c :: cs =>
    if c.isDigit then
      let r := takeDigits cs
      (c :: r.1, r.2)
    else ([], c :: cs)

/-- Digits to a natural number. -/
def digitsToNat (ds : List Char) : Nat :=
  ds.foldl (fun acc c => 10 * acc + (c.toNat - 48)) 0

/-- Parse one scalar value. -/
def parseScalar (cs : List Char) : Option (JVal × List Char) :=
  match cs with
  | [] => none
  | c :: rest =>
    if c = '"' then
      match takeStr rest with
      | some (s, r) => some (.jstr ⟨s⟩, r)
      | none => none
    else if c = '-' then
      let d := takeDigits rest
      if d.1 = [] then none else some (.jnum (-(digitsToNat d.1 : Int)), d.2)
    else if c.isDigit then
      let d := takeDigits (c :: rest)
      some (.jnum (digitsToNat d.1 : Int), d.2)
    else if leadsWith ("true".data) (c :: rest) then
      some (.jbool true, (c :: rest).drop 4)
    else if leadsWith ("false".data) (c :: rest) then
      some (.jbool false, (c :: rest).drop 5)
    else if leadsWith ("null".data) (c :: rest) then
      some (.jnull, (c :: rest).drop 4)
    else none

/-- Parse the key-value pairs of an object, positioned after the opening
brace or after a comma; fuel bounds the number of pairs. -/
def parsePairs : Nat → List Char → Option (List (String × JVal) × List Char)
  | 0, _ => none
  | fuel + 1, cs =>
    match skipWs cs with
    | '"' :: rest =>
      match takeStr rest with
      | none => none
      | some (key, r1) =>
        match skipWs r1 with
        | ':' :: r3 =>
          match parseScalar (skipWs r3) with
          | none => none
          | some (v, r4) =>
            (match skipWs r4 with
             | ',' :: r6 =>
               match parsePairs fuel r6 with
               | some (kvs, r7) => some ((⟨key⟩, v) :: kvs, r7)
               | none => none
             | '\x7d' :: r6 => some ([(⟨key⟩, v)], r6)
             | _ => none)
        | _ => none
    | _ => none

/-- The strict parser: one JSON document, nothing but whitespace after
it. -/
def microParse (raw : List Char) : Option MJson :=
  match skipWs raw with
  | '\x7b' :: rest =>
    (match skipWs rest with
     | '\x7d' :: r => if skipWs r = [] then some (.obj []) else none
     | _ =>
       match parsePairs (rest.length + 1) rest with
       | some (kvs, r) => if skipWs r = [] then some (.obj kvs) else none
       | none => none)
  | cs =>
    match parseScalar cs with
    | some (v, r) => if skipWs r = [] then some (.scalar v) else none
    | none => none

/-! ## The declarative contract of the backward brace scan -/

/-- A candidate end index is good when it lies strictly after the first
opening brace, holds a closing brace, and the slice up to it parses
strictly. (Indices beyond the text hold the default blank, hence are
never good.) -/
def goodEnd {J : Type} (P : List Char → Option J) (cs : List Char)
    (start e : Nat) : Prop :=
  start < e ∧ cs.getD e ' ' = '\x7d' ∧ (P (listSlice cs start (e + 1))).isSome

instance goodEnd_decidable {J : Type} (P : List Char → Option J)
    (cs : List Char) (start : Nat) : DecidablePred (goodEnd P cs start) :=
  fun _ => by unfold goodEnd; infer_instance

/-- The backward scan returns the strict parse of the slice ending at the
greatest good end index, and fails exactly when no good end index exists
at or below its starting bound. -/
theorem recoverFrom_eq_findGreatest {J : Type} (P : List Char → Option J)
    (cs : List Char) (start : Nat) :
    ∀ e, recoverFrom P cs start e =
      if Nat.findGreatest (goodEnd P cs start) e = 0 then none
      else P (listSlice cs start (Nat.findGreatest (goodEnd P cs start) e + 1)) := by
  intro e
  induction e with
  | zero => simp [recoverFrom]
  | succ e ih =>
    by_cases hle : e + 1 ≤ start
    · have hfg : Nat.findGreatest (goodEnd P cs start) (e + 1) = 0 := by
        rw [Nat.findGreatest_eq_zero_iff]
        intro n _ hnk hg
        have := hg.1
        omega
      rw [hfg]
      simp only [recoverFrom]
      rw [if_pos hle]
      simp
    · have hstart : start < e + 1 := Nat.not_le.1 hle
      by_cases hchar : cs.getD (e + 1) ' ' = '\x7d'
      · cases hPs : P (listSlice cs start (e + 2)) with
        | some j =>
          have hg : goodEnd P cs start (e + 1) := ⟨hstart, hchar, by rw [hPs]; rfl⟩
          rw [Nat.findGreatest_eq hg]
          simp only [recoverFrom]
          rw [if_neg hle, if_pos hchar, hPs, if_neg (Nat.succ_ne_zero e)]
        | none =>
          have hg : ¬ goodEnd P cs start (e + 1) := by
            intro g
            have := g.2.2
            rw [hPs] at this
            simp at this
          rw [Nat.findGreatest_of_not hg]
          simp only [recoverFrom]
          rw [if_neg hle, if_pos hchar, hPs]
          exact ih
      · have hg : ¬ goodEnd P cs start (e + 1) := fun g => hchar g.2.1
        rw [Nat.findGreatest_of_not hg]
        simp only [recoverFrom]
        rw [if_neg hle, if_neg hchar]
        exact ih

/-! ## Lemmas about first-occurrence duplicate removal -/

/-- dedupGo only looks at the membership set of the seen accumulator. -/
theorem dedupGo_congr {α : Type} [DecidableEq α] :
    ∀ (l seen seen' : List α), (∀ x, x ∈ seen ↔ x ∈ seen') →
      dedupGo seen l = dedupGo seen' l
  | [], _, _, _ => rfl
  | a :: t, seen, seen', h => by
    simp only [dedupGo]
    by_cases ha : a ∈ seen
    · rw [if_pos ha, if_pos ((h a).1 ha)]
      exact dedupGo_congr t seen seen' h
    · rw [if_neg ha, if_neg (fun q => ha ((h a).2 q))]
      exact congrArg (a :: ·) (dedupGo_congr t (a :: seen) (a :: seen')
        (by intro x; simp only [List.mem_cons]; rw [h x]))

/-- Adding an element to the seen accumulator is the same as filtering it
out of the input. -/
theorem dedupGo_cons_filter {α : Type} [DecidableEq α] (a : α) :
    ∀ (l seen : List α), a ∉ seen →
      dedupGo (a :: seen) l = dedupGo seen (l.filter fun b => decide (b ≠ a)) := by
  intro l
  induction l with
  | nil => intro seen _; rfl
  | cons b t ih =>
    intro seen ha
    by_cases hba : b = a
    · subst hba
      have hf : (b :: t).filter (fun x => decide (x ≠ b)) =
          t.filter (fun x => decide (x ≠ b)) := by
        simp [List.filter_cons]
      rw [hf]
      have hb : b ∈ b :: seen := List.mem_cons_self b seen
      simp only [dedupGo, if_pos hb]
      exact ih seen ha
    · have hf : (b :: t).filter (fun x => decide (x ≠ a)) =
          b :: t.filter (fun x => decide (x ≠ a)) := by
        simp [List.filter_cons, hba]
      rw [hf]
      by_cases hb : b ∈ seen
      · have hb' : b ∈ a :: seen := List.mem_cons_of_mem a hb
        simp only [dedupGo, if_pos hb', if_pos hb]
        exact ih seen ha
      · have hb' : b ∉ a :: seen := by
          intro h
          rcases List.mem_cons.1 h with h1 | h2
          · exact hba h1
          · exact hb h2
        simp only [dedupGo, if_neg hb', if_neg hb]
        congr 1
        have swap : dedupGo (b :: a :: seen) t = dedupGo (a :: b :: seen) t := by
          refine dedupGo_congr t _ _ ?_
          intro x
          simp only [List.mem_cons]
          tauto
        rw [swap]
        refine ih (b :: seen) ?_
        intro h
        rcases List.mem_cons.1 h with h1 | h2
        · exact hba h1.symm
        · exact ha h2

/-- The characteristic first-occurrence law of list(dict.fromkeys(lst)):
the head is kept and all its later duplicates are dropped. -/
theorem dedupKeepFirst_cons {α : Type} [DecidableEq α] (a : α) (l : List α) :
    dedupKeepFirst (a :: l) =
      a :: dedupKeepFirst (l.filter fun b => decide (b ≠ a)) := by
  unfold dedupKeepFirst
  have h0 : dedupGo ([] : List α) (a :: l) = a :: dedupGo [a] l := by
    simp [dedupGo]
  rw [h0, dedupGo_cons_filter a l [] (List.not_mem_nil a)]

/-- Membership in the deduplication worker. -/
theorem mem_dedupGo {α : Type} [DecidableEq α] :
    ∀ (l seen : List α) (x : α), x ∈ dedupGo seen l ↔ x ∈ l ∧ x ∉ seen := by
  intro l
  induction l with
  | nil => intro seen x; simp [dedupGo]
  | cons a t ih =>
    intro seen x
    by_cases ha : a ∈ seen
    · simp only [dedupGo, if_pos ha, ih, List.mem_cons]
      constructor
      · rintro ⟨hx, hs⟩
        exact ⟨Or.inr hx, hs⟩
      · rintro ⟨hx | hx, hs⟩
        · subst hx; exact absurd ha hs
        · exact ⟨hx, hs⟩
    · simp only [dedupGo, if_neg ha, List.mem_cons, ih]
      constructor
      · rintro (rfl | ⟨hx, hs⟩)
        · exact ⟨Or.inl rfl, ha⟩
        · exact ⟨Or.inr hx, fun h => hs (Or.inr h)⟩
      · rintro ⟨rfl | hx, hs⟩
        · exact Or.inl rfl
        · by_cases hxa : x = a
          · exact Or.inl hxa
          · refine Or.inr ⟨hx, ?_⟩
            intro h
            rcases h with h1 | h2
            · exact hxa h1
            · exact hs h2

/-- Duplicate removal yields a duplicate-free list. -/
theorem dedupGo_nodup {α : Type} [DecidableEq α] :
    ∀ (l seen : List α), (dedupGo seen l).Nodup := by
  intro l
  induction l with
  | nil => intro seen; simp [dedupGo]
  | cons a t ih =>
    intro seen
    by_cases ha : a ∈ seen
    · simp only [dedupGo, if_pos ha]
      exact ih seen
    · simp only [dedupGo, if_neg ha]
      refine List.nodup_cons.2 ⟨?_, ih (a :: seen)⟩
      intro hmem
      exact ((mem_dedupGo t (a :: seen) a).1 hmem).2 (List.mem_cons_self a seen)

/-! ## Lemmas about the candidate list -/

/-- Membership in the flattened candidate (model, region) list. -/
theorem mem_candidatePairs {ms : List String} :
    ∀ {rs : List String} {p : String × String},
      p ∈ candidatePairs ms rs ↔ p.1 ∈ ms ∧ p.2 ∈ rs := by
  intro rs
  induction rs with
  | nil => intro p; simp [candidatePairs]
  | cons r rest ih =>
    intro p
    obtain ⟨p1, p2⟩ := p
    simp only [candidatePairs, List.mem_append, List.mem_map, ih, List.mem_cons]
    constructor
    · rintro (⟨m, hm, he⟩ | ⟨h1, h2⟩)
      · cases he
        exact ⟨hm, Or.inl rfl⟩
      · exact ⟨h1, Or.inr h2⟩
    · rintro ⟨h1, rfl | h2⟩
      · exact Or.inl ⟨p1, h1, rfl⟩
      · exact Or.inr ⟨h1, h2⟩

/-- Distinct models paired with distinct regions give a duplicate-free
candidate list. -/
theorem candidatePairs_nodup (ms : List String) :
    ∀ (rs : List String), ms.Nodup → rs.Nodup → (candidatePairs ms rs).Nodup := by
  intro rs
  induction rs with
  | nil => intro _ _; simp [candidatePairs]
  | cons r rest ih =>
    intro hm hr
    have hr' := List.nodup_cons.1 hr
    simp only [candidatePairs]
    refine List.Nodup.append ?_ (ih hm hr'.2) ?_
    · refine hm.map ?_
      intro m₁ m₂ h
      exact congrArg Prod.fst h
    · intro p hp1 hp2
      obtain ⟨m, _, rfl⟩ := List.mem_map.1 hp1
      exact hr'.1 ((mem_candidatePairs).1 hp2).2

/-- The built region order has no duplicates. -/
theorem regions_to_try_nodup (current : String) :
    (regions_to_try current).Nodup := by
  unfold regions_to_try
  have hnd : baseRegions.Nodup := by decide
  by_cases h : current ∈ baseRegions
  · rw [if_pos h]
    refine List.nodup_cons.2 ⟨?_, hnd.erase current⟩
    intro hmem
    exact ((hnd.mem_erase_iff).1 hmem).1 rfl
  · rw [if_neg h]
    exact List.nodup_cons.2 ⟨h, hnd⟩

/-- The built model order has no duplicates. -/
theorem models_to_try_nodup (seed : String) : (models_to_try seed).Nodup :=
  dedupGo_nodup _ _

/-- The seed model always heads the model order. -/
theorem models_to_try_head (seed : String) :
    (models_to_try seed).head? = some seed := by
  unfold models_to_try dedupKeepFirst
  simp [dedupGo]

/-! ## Claims about the fallback planner -/

/-- C7: for every seed variant and configured default region, the
candidate list places the seed first in the variant order and the default
region first in the region order, contains no duplicate (variant, region)
pair, and the duplicate removal keeps first occurrences (the
characteristic law of list(dict.fromkeys(lst))). -/
theorem c7_candidate_plan (seed current : String) :
    (models_to_try seed).head? = some seed ∧
    (regions_to_try current).head? = some current ∧
    (candidates seed current).Nodup ∧
    ∀ (a : String) (l : List String),
      dedupKeepFirst (a :: l) =
        a :: dedupKeepFirst (l.filter fun b => decide (b ≠ a)) :=
  ⟨models_to_try_head seed, rfl,
   candidatePairs_nodup _ _ (models_to_try_nodup seed) (regions_to_try_nodup current),
   fun a l => dedupKeepFirst_cons a l⟩

/-- C8 counterexample: the seed "text-bison" matches none of the family
markers "flash", "2.0", "pro", and the built variant list is exactly the
seed alone, not a longer list: no generic catalog is appended. -/
theorem c8_counterexample :
    pyContains "text-bison" "flash" = false ∧
    pyContains "text-bison" "2.0" = false ∧
    pyContains "text-bison" "pro" = false ∧
    models_to_try "text-bison" = ["text-bison"] ∧
    ¬ 1 < (models_to_try "text-bison").length := by decide

/-- C8 amended: for a seed containing neither "flash" nor "2.0", the list
is the deduplicated seed-plus-pro-catalog when the seed contains "pro"
(and then has more entries than the seed alone), and is exactly the seed
alone otherwise. -/
theorem c8_amended (seed : String)
    (hf : pyContains seed "flash" = false)
    (h2 : pyContains seed "2.0" = false) :
    models_to_try seed =
      (if pyContains seed "pro" then dedupKeepFirst (seed :: proCatalog)
       else [seed]) ∧
    (pyContains seed "pro" = true → 1 < (models_to_try seed).length) := by
  have hmain : models_to_try seed =
      (if pyContains seed "pro" then dedupKeepFirst (seed :: proCatalog)
       else [seed]) := by
    unfold models_to_try
    rw [hf, h2]
    cases hp : pyContains seed "pro" <;> simp [hp, dedupKeepFirst, dedupGo]
  refine ⟨hmain, ?_⟩
  intro hp
  rw [hmain, if_pos hp, dedupKeepFirst_cons]
  by_cases e1 : seed = "gemini-1.5-pro-002"
  · subst e1; decide
  · have e1' : ("gemini-1.5-pro-002" : String) ≠ seed := fun h => e1 h.symm
    have hfil : proCatalog.filter (fun b => decide (b ≠ seed)) =
        "gemini-1.5-pro-002" ::
          (["gemini-1.5-pro-001", "gemini-2.0-flash-exp"].filter
            fun b => decide (b ≠ seed)) := by
      simp [proCatalog, List.filter_cons, e1']
    rw [hfil, dedupKeepFirst_cons]
    simp [List.length_cons]

/-- C8 amended, witness at the concrete seed "gemini-pro". -/
theorem c8_amended_witness :
    pyContains "gemini-pro" "flash" = false ∧
    pyContains "gemini-pro" "2.0" = false ∧
    (models_to_try "gemini-pro" =
        (if pyContains "gemini-pro" "pro" then
          dedupKeepFirst ("gemini-pro" :: proCatalog)
        else ["gemini-pro"]) ∧
      (pyContains "gemini-pro" "pro" = true →
        1 < (models_to_try "gemini-pro").length)) :=
  ⟨by decide, by decide, c8_amended "gemini-pro" (by decide) (by decide)⟩

/-! ## Claims about the response cache -/

/-- C9: the cache key function is not injective on (variant, text) pairs:
the distinct pairs (variant "a:b", text "c") and (variant "a", text
"b:c") derive the same key, and a set for the first changes what get
returns for the second (which was never written). -/
theorem c9_cache_key_collision :
    ((("a:b", "c") : String × String) ≠ ("a", "b:c")) ∧
    generate_key "c" "a:b" = generate_key "b:c" "a" ∧
    CacheManager.get (CacheManager.set [] "c" "a:b" "R" 0) "b:c" "a" =
      some ⟨"R", 0⟩ ∧
    CacheManager.get ([] : Cache) "b:c" "a" = none := by decide

/-- C4 counterexample: the pair (variant "a", text "b:c") is never
written, yet after a single set for the distinct pair (variant "a:b",
text "c") a get for it returns an entry instead of absent. -/
theorem c4_counterexample :
    CacheManager.get (CacheManager.set [] "c" "a:b" "R" 0) "b:c" "a" =
      some ⟨"R", 0⟩ ∧
    ((("a", "b:c") : String × String) ≠ ("a:b", "c")) := by decide

/-- C4 amended: get(v, t) directly after set(v, t, r) returns the entry
holding r; a set whose derived key differs leaves get(v, t) unchanged
(so a never-written pair reads absent unless a written pair collides with
its key); and get on the empty cache is absent. -/
theorem c4_amended (c : Cache) (v t r v' t' r' : String) (ts ts' : Nat)
    (h : generate_key t' v' ≠ generate_key t v) :
    CacheManager.get (CacheManager.set c t v r ts) t v = some ⟨r, ts⟩ ∧
    CacheManager.get (CacheManager.set c t' v' r' ts') t v =
      CacheManager.get c t v ∧
    CacheManager.get ([] : Cache) t v = none := by
  refine ⟨?_, ?_, rfl⟩
  · simp [CacheManager.get, CacheManager.set, cacheFind]
  · simp [CacheManager.get, CacheManager.set, cacheFind, h]

/-! ## Lemmas about the rate limiter -/

/-- Refilling does not change the configured rates. -/
theorem refill_rpm (now : Nat) (s : LimiterState) :
    (refill_minute_bucket now s).requests_per_minute = s.requests_per_minute := by
  unfold refill_minute_bucket
  dsimp only
  split <;> rfl

/-- The refilled bucket stays within the configured capacity. -/
theorem refill_bucket_le (now : Nat) (s : LimiterState)
    (h : s.min_bucket ≤ s.requests_per_minute) :
    (refill_minute_bucket now s).min_bucket ≤ s.requests_per_minute := by
  unfold refill_minute_bucket
  dsimp only
  split
  · exact Nat.min_le_left _ _
  · exact h

/-- Recording usage does not change the bucket or the configured rate. -/
theorem record_bucket_rpm (today : Nat) (s : LimiterState) :
    ((record_usage today s).1).min_bucket = s.min_bucket ∧
    ((record_usage today s).1).requests_per_minute = s.requests_per_minute := by
  unfold record_usage
  dsimp only
  split <;> exact ⟨rfl, rfl⟩

/-- The daily-limit check does not change the bucket or the configured
rate. -/
theorem check_bucket_rpm (today : Nat) (s : LimiterState) :
    ((check_daily_limit today s).2).min_bucket = s.min_bucket ∧
    ((check_daily_limit today s).2).requests_per_minute = s.requests_per_minute := by
  unfold check_daily_limit
  dsimp only
  split <;> split <;> exact ⟨rfl, rfl⟩

/-- The acquire loop keeps the bucket within capacity. -/
theorem acquireGo_inv (today timeout start : Nat) :
    ∀ (times : List Nat) (s : LimiterState) (sleeps : Nat),
      s.min_bucket ≤ s.requests_per_minute →
      (acquireGo today timeout start s sleeps times).2.1.min_bucket ≤
        (acquireGo today timeout start s sleeps times).2.1.requests_per_minute := by
  intro times
  induction times with
  | nil => intro s sleeps h; exact h
  | cons now rest ih =>
    intro s sleeps h
    simp only [acquireGo]
    have h₁ : (refill_minute_bucket now s).min_bucket ≤
        (refill_minute_bucket now s).requests_per_minute := by
      rw [refill_rpm]
      exact refill_bucket_le now s h
    by_cases hb : (refill_minute_bucket now s).min_bucket ≥ 1
    · rw [if_pos hb]
      have hrec := record_bucket_rpm today
        { refill_minute_bucket now s with
            min_bucket := (refill_minute_bucket now s).min_bucket - 1 }
      dsimp only
      rw [hrec.1, hrec.2]
      exact Nat.le_trans (Nat.sub_le _ 1) h₁
    · rw [if_neg hb]
      by_cases ht : now - start ≥ timeout
      · rw [if_pos ht]
        exact h₁
      · rw [if_neg ht]
        exact ih (refill_minute_bucket now s) (sleeps + 1) h₁

/-- One acquire call keeps the bucket within capacity. -/
theorem acquire_inv (today timeout : Nat) (times : List Nat) (s : LimiterState)
    (h : s.min_bucket ≤ s.requests_per_minute) :
    (acquire today timeout times s).2.1.min_bucket ≤
      (acquire today timeout times s).2.1.requests_per_minute := by
  unfold acquire
  have hch := check_bucket_rpm today s
  have h₁ : ((check_daily_limit today s).2).min_bucket ≤
      ((check_daily_limit today s).2).requests_per_minute := by
    rw [hch.1, hch.2]
    exact h
  rcases hc : check_daily_limit today s with ⟨b, s₁⟩
  rw [hc] at h₁
  cases b
  · exact h₁
  · cases times with
    | nil => exact h₁
    | cons now rest => exact acquireGo_inv today timeout now (now :: rest) s₁ 0 h₁

/-- A whole sequence of acquire calls keeps the bucket within capacity. -/
theorem runTrace_inv (trace : List (Nat × Nat × List Nat)) :
    ∀ (s : LimiterState), s.min_bucket ≤ s.requests_per_minute →
      (runTrace s trace).2.min_bucket ≤ (runTrace s trace).2.requests_per_minute := by
  induction trace with
  | nil => intro s h; exact h
  | cons c rest ih =>
    intro s h
    obtain ⟨today, timeout, times⟩ := c
    simp only [runTrace]
    exact ih _ (acquire_inv today timeout times s h)

/-- A successful loop iteration takes exactly one token from the refilled
bucket and records exactly one usage. -/
theorem acquireGo_success (today timeout start now : Nat) (rest : List Nat)
    (sleeps : Nat) (s : LimiterState)
    (h : 1 ≤ (refill_minute_bucket now s).min_bucket) :
    acquireGo today timeout start s sleeps (now :: rest) =
      (some true,
        (record_usage today
          { refill_minute_bucket now s with
              min_bucket := (refill_minute_bucket now s).min_bucket - 1 }).1,
        sleeps) := by
  simp only [acquireGo]
  rw [if_pos h]

/-- Refilling changes neither the recorded usage nor its date. -/
theorem refill_daily (now : Nat) (l : LimiterState) :
    (refill_minute_bucket now l).daily_usage = l.daily_usage ∧
    (refill_minute_bucket now l).daily_usage_date = l.daily_usage_date := by
  unfold refill_minute_bucket
  dsimp only
  split <;> exact ⟨rfl, rfl⟩

/-- The limiter state after the successful first iteration of acquire:
the refilled bucket minus the consumed token, with the usage recorded. -/
def afterAcquire (now today : Nat) (l : LimiterState) : LimiterState :=
  (record_usage today
    { refill_minute_bucket now l with
        min_bucket := (refill_minute_bucket now l).min_bucket - 1 }).1

/-- When the day matches, the daily limit is not reached and a token is
available after refill, acquire succeeds at its first iteration. -/
theorem acquire_first_success (today timeout now : Nat) (s : LimiterState)
    (h_day : today = s.daily_usage_date)
    (h_daily : s.daily_usage < s.requests_per_day)
    (h_bucket : 1 ≤ (refill_minute_bucket now s).min_bucket) :
    acquire today timeout [now] s = (some true, afterAcquire now today s, 0) := by
  unfold acquire check_daily_limit
  have hd : ¬ today ≠ s.daily_usage_date := by simp [h_day]
  rw [if_neg hd]
  have hge : ¬ s.daily_usage ≥ s.requests_per_day := Nat.not_le.2 h_daily
  rw [if_neg hge]
  exact acquireGo_success today timeout now now [] 0 s h_bucket

/-- A successful acquire records exactly one more usage (same-day case). -/
theorem afterAcquire_usage (now today : Nat) (l : LimiterState)
    (h_day : today = l.daily_usage_date) :
    (afterAcquire now today l).daily_usage = l.daily_usage + 1 := by
  unfold afterAcquire record_usage
  dsimp only
  have hdate : ¬ today ≠
      ({ refill_minute_bucket now l with
          min_bucket := (refill_minute_bucket now l).min_bucket - 1 }).daily_usage_date := by
    dsimp only
    rw [(refill_daily now l).2, ← h_day]
    simp
  rw [if_neg hdate]
  dsimp only
  rw [(refill_daily now l).1]

/-! ## Claims about the rate limiter -/

/-- C1 counterexample: a limiter whose recorded daily usage 1425 is
exactly 95 percent of the ceiling 1500 grants the next acquire
immediately (returns True with zero sleeps) instead of failing: the
95-percent threshold is not enforced by acquire. -/
theorem c1_counterexample :
    20 * (⟨5, 1500, 5, 0, 1425, 0⟩ : LimiterState).daily_usage ≥
      19 * (⟨5, 1500, 5, 0, 1425, 0⟩ : LimiterState).requests_per_day ∧
    acquire 0 300 [0] ⟨5, 1500, 5, 0, 1425, 0⟩ =
      (some true, ⟨5, 1500, 4, 0, 1426, 0⟩, 0) := by decide

/-- C1 amended: acquire fails immediately, with no sleep, for every
timeout, exactly at the full ceiling (recorded usage at least
requests_per_day); the 95-percent-of-ceiling threshold is enforced one
level up by call_vertex_with_retry, which returns no result without
invoking acquire and without consuming any backend outcome once usage
reaches 95 percent of the ceiling. -/
theorem c1_amended (s : LimiterState) (today timeout : Nat) (times : List Nat)
    (full prompt current : String) (max_retries now today₂ ts : Nat)
    (st : FlowState) (outs : List CallOutcome)
    (h_day : today = s.daily_usage_date)
    (h_full : s.requests_per_day ≤ s.daily_usage)
    (h_trim : ¬ pyStrip prompt.data = [])
    (h_miss : CacheManager.get st.cache prompt (lastComponent full) = none)
    (h_breaker : 19 * st.limiter.requests_per_day ≤
      20 * get_daily_usage today₂ st.limiter) :
    acquire today timeout times s = (some false, s, 0) ∧
    call_vertex_with_retry full prompt max_retries current now today₂ ts st outs =
      (.noResult, st, outs) := by
  constructor
  · unfold acquire check_daily_limit
    have hd : ¬ today ≠ s.daily_usage_date := by simp [h_day]
    rw [if_neg hd, if_pos h_full]
  · unfold call_vertex_with_retry
    rw [if_neg h_trim, h_miss, if_pos h_breaker]

/-- C1 amended, witness: the full-ceiling limiter rejects and the
orchestrator short-circuits at 95 percent of the ceiling. -/
theorem c1_amended_witness :
    (0 : Nat) = (⟨5, 1500, 5, 0, 1500, 0⟩ : LimiterState).daily_usage_date ∧
    acquire 0 300 [0] ⟨5, 1500, 5, 0, 1500, 0⟩ =
      (some false, ⟨5, 1500, 5, 0, 1500, 0⟩, 0) ∧
    call_vertex_with_retry "m" "p" 3 "us-central1" 0 0 0
        ⟨⟨5, 1500, 5, 0, 1425, 0⟩, []⟩ [] =
      (.noResult, ⟨⟨5, 1500, 5, 0, 1425, 0⟩, []⟩, []) := by
  have h := c1_amended ⟨5, 1500, 5, 0, 1500, 0⟩ 0 300 [0] "m" "p" "us-central1"
    3 0 0 0 ⟨⟨5, 1500, 5, 0, 1425, 0⟩, []⟩ []
    (by decide) (by decide) (by decide) (by decide) (by decide)
  exact ⟨rfl, h.1, h.2⟩

/-- C3 counterexample: with requests_per_minute = 5, six acquire calls
all succeed at the instants 0, 0, 0, 0, 0 and 12 seconds, all inside one
single minute: the count of successes in a one-minute window exceeds the
per-minute ceiling (a full burst plus a refill), so the windowed reading
of the claim fails. -/
theorem c3_counterexample :
    (runTrace ⟨5, 1500, 5, 0, 0, 0⟩
        [(0, 300, [0]), (0, 300, [0]), (0, 300, [0]), (0, 300, [0]),
         (0, 300, [0]), (0, 300, [12])]).1 =
      [some true, some true, some true, some true, some true, some true] ∧
    (∀ t ∈ [0, 0, 0, 0, 0, 12], t < 60) ∧
    (⟨5, 1500, 5, 0, 0, 0⟩ : LimiterState).requests_per_minute = 5 ∧ 5 < 6 := by
  refine ⟨by decide, ?_, rfl, by decide⟩
  intro t ht
  fin_cases ht <;> decide

/-- C3 amended: along every sequence of acquire calls from a state whose
bucket is within capacity, the token count never exceeds the capacity
requests_per_minute; and every successful acquisition takes exactly one
token from the (refilled) bucket while recording exactly one usage. The
number of successes inside a one-minute wall-clock window can however
reach a full burst plus a refill, i.e. up to twice the per-minute rate
(see the counterexample). -/
theorem c3_amended (s : LimiterState) (trace : List (Nat × Nat × List Nat))
    (h : s.min_bucket ≤ s.requests_per_minute) :
    ((runTrace s trace).2.min_bucket ≤ (runTrace s trace).2.requests_per_minute) ∧
    (∀ (today timeout start now : Nat) (rest : List Nat) (sleeps : Nat)
        (s₀ : LimiterState),
      1 ≤ (refill_minute_bucket now s₀).min_bucket →
      acquireGo today timeout start s₀ sleeps (now :: rest) =
        (some true,
          (record_usage today
            { refill_minute_bucket now s₀ with
                min_bucket := (refill_minute_bucket now s₀).min_bucket - 1 }).1,
          sleeps)) :=
  ⟨runTrace_inv trace s h,
   fun today timeout start now rest sleeps s₀ h₀ =>
     acquireGo_success today timeout start now rest sleeps s₀ h₀⟩

/-- C3 amended, witness at a concrete run. -/
theorem c3_amended_witness :
    (⟨5, 1500, 5, 0, 0, 0⟩ : LimiterState).min_bucket ≤
      (⟨5, 1500, 5, 0, 0, 0⟩ : LimiterState).requests_per_minute ∧
    (((runTrace ⟨5, 1500, 5, 0, 0, 0⟩ [(0, 300, [0]), (0, 300, [7, 19])]).2.min_bucket ≤
        (runTrace ⟨5, 1500, 5, 0, 0, 0⟩ [(0, 300, [0]), (0, 300, [7, 19])]).2.requests_per_minute) ∧
      (∀ (today timeout start now : Nat) (rest : List Nat) (sleeps : Nat)
          (s₀ : LimiterState),
        1 ≤ (refill_minute_bucket now s₀).min_bucket →
        acquireGo today timeout start s₀ sleeps (now :: rest) =
          (some true,
            (record_usage today
              { refill_minute_bucket now s₀ with
                  min_bucket := (refill_minute_bucket now s₀).min_bucket - 1 }).1,
            sleeps))) :=
  ⟨by decide, c3_amended ⟨5, 1500, 5, 0, 0, 0⟩ [(0, 300, [0]), (0, 300, [7, 19])] (by decide)⟩

/-- C5: a quota log persisted with usage n on day d and reloaded by a
fresh limiter on the same day d restores daily usage n; reloaded on any
later day it reports zero. -/
theorem c5_persistence (s : LimiterState) (rpm rpd now now' d' : Nat)
    (h : s.daily_usage_date < d') :
    get_daily_usage s.daily_usage_date
        (initLimiter rpm rpd now s.daily_usage_date (some (save_usage_log s))) =
      s.daily_usage ∧
    get_daily_usage d'
        (initLimiter rpm rpd now' d' (some (save_usage_log s))) = 0 := by
  constructor
  · simp [initLimiter, save_usage_log, get_daily_usage]
  · have hne : s.daily_usage_date ≠ d' := Nat.ne_of_lt h
    simp [initLimiter, save_usage_log, get_daily_usage, hne]

/-- C5 witness: usage 7 persisted on day 3 reloads as 7 on day 3 and as 0
on day 4. -/
theorem c5_persistence_witness :
    (⟨5, 1500, 5, 0, 7, 3⟩ : LimiterState).daily_usage_date < 4 ∧
    (get_daily_usage (⟨5, 1500, 5, 0, 7, 3⟩ : LimiterState).daily_usage_date
        (initLimiter 5 1500 0 (⟨5, 1500, 5, 0, 7, 3⟩ : LimiterState).daily_usage_date
          (some (save_usage_log ⟨5, 1500, 5, 0, 7, 3⟩))) =
      (⟨5, 1500, 5, 0, 7, 3⟩ : LimiterState).daily_usage ∧
    get_daily_usage 4 (initLimiter 5 1500 0 4
        (some (save_usage_log ⟨5, 1500, 5, 0, 7, 3⟩))) = 0) :=
  ⟨by decide, c5_persistence ⟨5, 1500, 5, 0, 7, 3⟩ 5 1500 0 0 4 (by decide)⟩

/-! ## Lemmas about the orchestrator -/

/-- The attempt loop never invents backend outcomes: the unconsumed
suffix is never longer than the input. -/
theorem attemptLoop_len_le (prompt m : String) (ts : Nat) :
    ∀ (retries : Nat) (c : Cache) (outs : List CallOutcome),
      ((attemptLoop prompt m ts c retries outs).2.2).length ≤ outs.length := by
  intro retries
  induction retries with
  | zero =>
    intro c outs
    cases outs <;> simp [attemptLoop]
  | succ k ih =>
    intro c outs
    cases outs with
    | nil => simp [attemptLoop]
    | cons o rest =>
      cases o <;> simp only [attemptLoop, List.length_cons] <;>
        first
          | exact Nat.le_succ _
          | exact Nat.le_trans (ih c rest) (Nat.le_succ _)

/-- With at least one retry permitted and at least one outcome available,
the attempt loop consumes at least one backend outcome. -/
theorem attemptLoop_len_lt (prompt m : String) (ts : Nat)
    (retries : Nat) (c : Cache) (o : CallOutcome) (rest : List CallOutcome)
    (h : 1 ≤ retries) :
    ((attemptLoop prompt m ts c retries (o :: rest)).2.2).length <
      (o :: rest).length := by
  obtain ⟨k, rfl⟩ : ∃ k, retries = k + 1 :=
    ⟨retries - 1, (Nat.succ_pred_eq_of_pos h).symm⟩
  cases o <;> simp only [attemptLoop, List.length_cons] <;>
    first
      | exact Nat.lt_succ_self _
      | exact Nat.lt_succ_of_le (attemptLoop_len_le prompt m ts k c rest)

/-- One candidate never lengthens the outcome stream. -/
theorem tryCandidate_len_le (prompt m : String) (max_retries now today ts : Nat)
    (st : FlowState) (outs : List CallOutcome) :
    ((tryCandidate prompt m max_retries now today ts st outs).2.2).length ≤
      outs.length := by
  unfold tryCandidate
  rcases h : acquire today 30 [now] st.limiter with ⟨ob, l, k⟩
  match ob with
  | some true => exact attemptLoop_len_le prompt m ts max_retries st.cache outs
  | some false => exact Nat.le_refl _
  | none => exact Nat.le_refl _

/-- The candidate loop never lengthens the outcome stream. -/
theorem tryCandidates_len_le (prompt : String) (max_retries now today ts : Nat) :
    ∀ (cands : List (String × String)) (st : FlowState) (outs : List CallOutcome),
      ((tryCandidates prompt max_retries now today ts st outs cands).2.2).length ≤
        outs.length := by
  intro cands
  induction cands with
  | nil => intro st outs; simp [tryCandidates]
  | cons mr rest ih =>
    intro st outs
    obtain ⟨m, r⟩ := mr
    simp only [tryCandidates]
    cases h1 : (tryCandidate prompt m max_retries now today ts st outs).1 with
    | some t =>
      simp only
      exact tryCandidate_len_le prompt m max_retries now today ts st outs
    | none =>
      simp only
      exact Nat.le_trans (ih _ _)
        (tryCandidate_len_le prompt m max_retries now today ts st outs)

/-- When acquire decides success at its first iteration, one candidate is
exactly the attempt loop threaded through the acquired limiter. -/
theorem tryCandidate_after_acquire (prompt m : String)
    (max_retries now today ts : Nat) (st : FlowState) (outs : List CallOutcome)
    (h_day : today = st.limiter.daily_usage_date)
    (h_daily : st.limiter.daily_usage < st.limiter.requests_per_day)
    (h_bucket : 1 ≤ (refill_minute_bucket now st.limiter).min_bucket) :
    tryCandidate prompt m max_retries now today ts st outs =
      ((attemptLoop prompt m ts st.cache max_retries outs).1,
        ⟨afterAcquire now today st.limiter,
          (attemptLoop prompt m ts st.cache max_retries outs).2.1⟩,
        (attemptLoop prompt m ts st.cache max_retries outs).2.2) := by
  unfold tryCandidate
  rw [acquire_first_success today 30 now st.limiter h_day h_daily h_bucket]

/-- The candidate list always starts with the seed model in the default
region. -/
theorem candidates_cons (seed current : String) :
    ∃ tail, candidates seed current = (seed, current) :: tail := by
  unfold candidates
  have hm : ∃ ms, models_to_try seed = seed :: ms := by
    unfold models_to_try
    rw [dedupKeepFirst_cons]
    exact ⟨_, rfl⟩
  obtain ⟨ms, hm⟩ := hm
  rw [hm, show regions_to_try current =
    current :: (if current ∈ baseRegions then baseRegions.erase current
      else baseRegions) from rfl]
  exact ⟨_, rfl⟩

/-- Cache keys built from the same prompt coincide only for the same
model name (String append cancels on the right). -/
theorem generate_key_model_inj (p m m' : String)
    (h : generate_key p m = generate_key p m') : m = m' := by
  unfold generate_key at h
  have h1 : (m ++ ":" ++ p).data = (m' ++ ":" ++ p).data := by rw [h]
  simp only [String.data_append] at h1
  have h1' : m.data ++ (":".data ++ p.data) = m'.data ++ (":".data ++ p.data) := by
    simpa [List.append_assoc] using h1
  have h3 : m.data = m'.data := List.append_cancel_right h1'
  cases m
  cases m'
  exact congrArg String.mk h3

/-- A cache-missed invocation with a live limiter and a non-empty outcome
stream reaches the backend: it consumes at least one outcome and its
result is never a cache hit. -/
theorem flow_miss_consumes (full prompt current : String)
    (max_retries now today ts : Nat) (st : FlowState) (outs : List CallOutcome)
    (h_trim : ¬ pyStrip prompt.data = [])
    (h_miss : CacheManager.get st.cache prompt (lastComponent full) = none)
    (h_breaker : 20 * get_daily_usage today st.limiter <
      19 * st.limiter.requests_per_day)
    (h_day : today = st.limiter.daily_usage_date)
    (h_daily : st.limiter.daily_usage < st.limiter.requests_per_day)
    (h_bucket : 1 ≤ (refill_minute_bucket now st.limiter).min_bucket)
    (h_retries : 1 ≤ max_retries)
    (h_outs : outs ≠ []) :
    ((call_vertex_with_retry full prompt max_retries current now today ts st outs).2.2).length <
      outs.length ∧
    ∀ x, (call_vertex_with_retry full prompt max_retries current now today ts st outs).1 ≠
      FlowResult.cached x := by
  obtain ⟨o, rest, rfl⟩ : ∃ o rest, outs = o :: rest := by
    cases outs with
    | nil => exact absurd rfl h_outs
    | cons o rest => exact ⟨o, rest, rfl⟩
  unfold call_vertex_with_retry
  rw [if_neg h_trim, h_miss]
  have hB : ¬ 20 * get_daily_usage today st.limiter ≥
      19 * st.limiter.requests_per_day := Nat.not_le.2 h_breaker
  rw [if_neg hB]
  obtain ⟨tail, hc⟩ := candidates_cons (lastComponent full) current
  rw [hc]
  simp only [tryCandidates]
  rw [tryCandidate_after_acquire prompt (lastComponent full) max_retries now today
    ts st (o :: rest) h_day h_daily h_bucket]
  have hlt : ((attemptLoop prompt (lastComponent full) ts st.cache max_retries
      (o :: rest)).2.2).length < (o :: rest).length :=
    attemptLoop_len_lt prompt (lastComponent full) ts max_retries st.cache o rest h_retries
  cases h1 : (attemptLoop prompt (lastComponent full) ts st.cache max_retries
      (o :: rest)).1 with
  | some t =>
    simp only [h1]
    exact ⟨hlt, by intro x h; cases h⟩
  | none =>
    simp only [h1]
    have hle := tryCandidates_len_le prompt max_retries now today ts tail
      ⟨afterAcquire now today st.limiter,
        (attemptLoop prompt (lastComponent full) ts st.cache max_retries (o :: rest)).2.1⟩
      ((attemptLoop prompt (lastComponent full) ts st.cache max_retries (o :: rest)).2.2)
    refine ⟨Nat.lt_of_le_of_lt ?_ hlt, ?_⟩
    · cases h2 : (tryCandidates prompt max_retries now today ts
          ⟨afterAcquire now today st.limiter,
            (attemptLoop prompt (lastComponent full) ts st.cache max_retries (o :: rest)).2.1⟩
          ((attemptLoop prompt (lastComponent full) ts st.cache max_retries (o :: rest)).2.2)
          tail).1 with
      | some t => simpa [h2] using hle
      | none => simpa [h2] using hle
    · intro x
      cases h2 : (tryCandidates prompt max_retries now today ts
          ⟨afterAcquire now today st.limiter,
            (attemptLoop prompt (lastComponent full) ts st.cache max_retries (o :: rest)).2.1⟩
          ((attemptLoop prompt (lastComponent full) ts st.cache max_retries (o :: rest)).2.2)
          tail).1 with
      | some t => simp [h2]
      | none => simp [h2]

/-! ## Claims about the orchestrator -/

/-- C2 counterexample: from a limiter at usage 10 of ceiling 1500, an
invocation whose first backend outcome is an explicit quota-exceeded
(ResourceExhausted) error simply advances to the next candidate, which
succeeds: the final usage is 12 (two acquires), not the force-set
ceiling-plus-one the claim requires, and the breaker is not tripped. -/
theorem c2_counterexample :
    (call_vertex_with_retry "m" "p" 3 "us-central1" 0 0 0
        ⟨⟨5, 1500, 5, 0, 10, 0⟩, []⟩
        [CallOutcome.resourceExhausted, CallOutcome.success "ok"]).1 =
      FlowResult.fresh "ok" ∧
    (call_vertex_with_retry "m" "p" 3 "us-central1" 0 0 0
        ⟨⟨5, 1500, 5, 0, 10, 0⟩, []⟩
        [CallOutcome.resourceExhausted, CallOutcome.success "ok"]).2.1.limiter.daily_usage =
      12 ∧
    ¬ (call_vertex_with_retry "m" "p" 3 "us-central1" 0 0 0
        ⟨⟨5, 1500, 5, 0, 10, 0⟩, []⟩
        [CallOutcome.resourceExhausted, CallOutcome.success "ok"]).2.1.limiter.daily_usage =
      (⟨5, 1500, 5, 0, 10, 0⟩ : LimiterState).requests_per_day + 1 := by decide

/-- C2 amended: an explicit quota-exceeded outcome makes the attempt loop
abandon the candidate with no result and no cache write; the daily-usage
counter is not force-set: it carries exactly the single increment
recorded by the acquire that preceded the attempt. -/
theorem c2_amended (prompt m : String) (max_retries now today ts : Nat)
    (st : FlowState) (rest : List CallOutcome)
    (h_day : today = st.limiter.daily_usage_date)
    (h_daily : st.limiter.daily_usage < st.limiter.requests_per_day)
    (h_bucket : 1 ≤ (refill_minute_bucket now st.limiter).min_bucket)
    (h_retries : 1 ≤ max_retries) :
    tryCandidate prompt m max_retries now today ts st
        (CallOutcome.resourceExhausted :: rest) =
      (none, ⟨afterAcquire now today st.limiter, st.cache⟩, rest) ∧
    (afterAcquire now today st.limiter).daily_usage =
      st.limiter.daily_usage + 1 := by
  constructor
  · rw [tryCandidate_after_acquire prompt m max_retries now today ts st _
      h_day h_daily h_bucket]
    obtain ⟨k, rfl⟩ : ∃ k, max_retries = k + 1 :=
      ⟨max_retries - 1, (Nat.succ_pred_eq_of_pos h_retries).symm⟩
    simp [attemptLoop]
  · exact afterAcquire_usage now today st.limiter h_day

/-- C2 amended, witness at a concrete limiter. -/
theorem c2_amended_witness :
    1 ≤ (refill_minute_bucket 0 (⟨5, 1500, 5, 0, 10, 0⟩ : LimiterState)).min_bucket ∧
    (tryCandidate "p" "m" 3 0 0 0 ⟨⟨5, 1500, 5, 0, 10, 0⟩, []⟩
        [CallOutcome.resourceExhausted] =
      (none, ⟨afterAcquire 0 0 ⟨5, 1500, 5, 0, 10, 0⟩, []⟩, []) ∧
    (afterAcquire 0 0 ⟨5, 1500, 5, 0, 10, 0⟩).daily_usage =
      (⟨5, 1500, 5, 0, 10, 0⟩ : LimiterState).daily_usage + 1) :=
  ⟨by decide, c2_amended "p" "m" 3 0 0 0 ⟨⟨5, 1500, 5, 0, 10, 0⟩, []⟩ []
    (by decide) (by decide) (by decide) (by decide)⟩

/-- C10: the initial cache lookup of call_vertex_with_retry is keyed by
the seed model's name while the success path populates the cache under
the name of the model that actually succeeded; hence after an invocation
that succeeded only on a fallback model m2 different from the seed, the
seed-keyed lookup still misses, and a repeat invocation with the same
seed and prompt goes back to the backend (consumes at least one backend
outcome) instead of hitting the cache. -/
theorem c10_fallback_no_seed_hit
    (st st₂ : FlowState) (prompt full current m2 t : String)
    (max_retries now today ts now₂ today₂ ts₂ : Nat)
    (rest outs₂ : List CallOutcome)
    (h_m2 : m2 ≠ lastComponent full)
    (h_day : today = st.limiter.daily_usage_date)
    (h_daily : st.limiter.daily_usage < st.limiter.requests_per_day)
    (h_bucket : 1 ≤ (refill_minute_bucket now st.limiter).min_bucket)
    (h_retries : 1 ≤ max_retries)
    (h_miss : CacheManager.get st.cache prompt (lastComponent full) = none)
    (h_cache₂ : st₂.cache = CacheManager.set st.cache prompt m2 t ts)
    (h_trim : ¬ pyStrip prompt.data = [])
    (h_day₂ : today₂ = st₂.limiter.daily_usage_date)
    (h_daily₂ : st₂.limiter.daily_usage < st₂.limiter.requests_per_day)
    (h_breaker₂ : 20 * get_daily_usage today₂ st₂.limiter <
      19 * st₂.limiter.requests_per_day)
    (h_bucket₂ : 1 ≤ (refill_minute_bucket now₂ st₂.limiter).min_bucket)
    (h_outs₂ : outs₂ ≠ []) :
    tryCandidate prompt m2 max_retries now today ts st
        (CallOutcome.success t :: rest) =
      (some t,
        ⟨afterAcquire now today st.limiter,
          CacheManager.set st.cache prompt m2 t ts⟩,
        rest) ∧
    CacheManager.get st₂.cache prompt (lastComponent full) = none ∧
    ((call_vertex_with_retry full prompt max_retries current now₂ today₂ ts₂
        st₂ outs₂).2.2).length < outs₂.length ∧
    ∀ x, (call_vertex_with_retry full prompt max_retries current now₂ today₂ ts₂
        st₂ outs₂).1 ≠ FlowResult.cached x := by
  have hkey : generate_key prompt m2 ≠ generate_key prompt (lastComponent full) :=
    fun hk => h_m2 (generate_key_model_inj prompt m2 (lastComponent full) hk)
  have hmiss₂ : CacheManager.get st₂.cache prompt (lastComponent full) = none := by
    rw [h_cache₂]
    unfold CacheManager.get at h_miss ⊢
    unfold CacheManager.set
    simp only [cacheFind, if_neg hkey]
    exact h_miss
  have hflow := flow_miss_consumes full prompt current max_retries now₂ today₂
    ts₂ st₂ outs₂ h_trim hmiss₂ h_breaker₂ h_day₂ h_daily₂ h_bucket₂ h_retries
    h_outs₂
  refine ⟨?_, hmiss₂, hflow.1, hflow.2⟩
  rw [tryCandidate_after_acquire prompt m2 max_retries now today ts st _
    h_day h_daily h_bucket]
  obtain ⟨k, rfl⟩ : ∃ k, max_retries = k + 1 :=
    ⟨max_retries - 1, (Nat.succ_pred_eq_of_pos h_retries).symm⟩
  simp [attemptLoop]

/-- C10 witness: seed "gemini-pro" misses, fallback "gemini-1.5-pro-002"
succeeds and populates its own key; the repeat invocation misses the
cache and consumes a backend outcome. -/
theorem c10_fallback_no_seed_hit_witness :
    ("gemini-1.5-pro-002" : String) ≠ lastComponent "gemini-pro" ∧
    (tryCandidate "p" "gemini-1.5-pro-002" 3 0 0 0 ⟨⟨5, 1500, 5, 0, 10, 0⟩, []⟩
        [CallOutcome.success "ok"] =
      (some "ok",
        ⟨afterAcquire 0 0 ⟨5, 1500, 5, 0, 10, 0⟩,
          CacheManager.set [] "p" "gemini-1.5-pro-002" "ok" 0⟩,
        []) ∧
    CacheManager.get (CacheManager.set [] "p" "gemini-1.5-pro-002" "ok" 0) "p"
        (lastComponent "gemini-pro") = none ∧
    ((call_vertex_with_retry "gemini-pro" "p" 3 "us-central1" 0 0 1
        ⟨⟨5, 1500, 5, 0, 12, 0⟩, CacheManager.set [] "p" "gemini-1.5-pro-002" "ok" 0⟩
        [CallOutcome.notFound]).2.2).length <
      ([CallOutcome.notFound] : List CallOutcome).length ∧
    ∀ x, (call_vertex_with_retry "gemini-pro" "p" 3 "us-central1" 0 0 1
        ⟨⟨5, 1500, 5, 0, 12, 0⟩, CacheManager.set [] "p" "gemini-1.5-pro-002" "ok" 0⟩
        [CallOutcome.notFound]).1 ≠ FlowResult.cached x) :=
  ⟨by decide,
   c10_fallback_no_seed_hit ⟨⟨5, 1500, 5, 0, 10, 0⟩, []⟩
    ⟨⟨5, 1500, 5, 0, 12, 0⟩, CacheManager.set [] "p" "gemini-1.5-pro-002" "ok" 0⟩
    "p" "gemini-pro" "us-central1" "gemini-1.5-pro-002" "ok" 3 0 0 0 0 0 1 []
    [CallOutcome.notFound]
    (by decide) (by decide) (by decide) (by decide) (by decide) (by decide)
    (by decide) (by decide) (by decide) (by decide) (by decide) (by decide)
    (by decide)⟩

/-! ## Claim about the partial-JSON recovery -/

/-- C6: for every strict parser P and raw text whose cleaned form fails a
strict parse but contains an opening brace, the parse pipeline returns
exactly the strict parse of the slice from the first opening brace to the
greatest good closing-brace index (the closing brace nearest the end of
the text whose slice parses, found scanning backward), and fails when no
closing-brace index yields a parse; the accompanying conjuncts pin that
this index really is the greatest good one. -/
theorem c6_partial_recovery {J : Type} (P : List Char → Option J)
    (raw : List Char)
    (hfail : P (cleanContent raw) = none)
    (hbrace : (cleanContent raw).contains '\x7b' = true) :
    tryParseContent P raw =
      (if Nat.findGreatest
          (goodEnd P (cleanContent raw)
            ((cleanContent raw).findIdx fun c => c = '\x7b'))
          ((cleanContent raw).length - 1) = 0 then
        none
      else
        P (listSlice (cleanContent raw)
            ((cleanContent raw).findIdx fun c => c = '\x7b')
            (Nat.findGreatest
              (goodEnd P (cleanContent raw)
                ((cleanContent raw).findIdx fun c => c = '\x7b'))
              ((cleanContent raw).length - 1) + 1))) ∧
    (∀ k,
      Nat.findGreatest
          (goodEnd P (cleanContent raw)
            ((cleanContent raw).findIdx fun c => c = '\x7b'))
          ((cleanContent raw).length - 1) < k →
      k ≤ (cleanContent raw).length - 1 →
      ¬ goodEnd P (cleanContent raw)
          ((cleanContent raw).findIdx fun c => c = '\x7b') k) ∧
    (Nat.findGreatest
        (goodEnd P (cleanContent raw)
          ((cleanContent raw).findIdx fun c => c = '\x7b'))
        ((cleanContent raw).length - 1) ≠ 0 →
      goodEnd P (cleanContent raw)
        ((cleanContent raw).findIdx fun c => c = '\x7b')
        (Nat.findGreatest
          (goodEnd P (cleanContent raw)
            ((cleanContent raw).findIdx fun c => c = '\x7b'))
          ((cleanContent raw).length - 1))) := by
  refine ⟨?_, ?_, ?_⟩
  · simp only [tryParseContent]
    rw [hfail, if_pos hbrace]
    exact recoverFrom_eq_findGreatest P (cleanContent raw)
      ((cleanContent raw).findIdx fun c => c = '\x7b')
      ((cleanContent raw).length - 1)
  · exact fun k h1 h2 => (Nat.findGreatest_eq_iff.1 rfl).2.2 h1 h2
  · exact fun h0 => (Nat.findGreatest_eq_iff.1 rfl).2.1 h0

/-- C6 witness: the fixture text (an object followed by trailing garbage)
fails the strict microParse yet contains an opening brace, so the theorem
applies to it. -/
theorem c6_partial_recovery_witness :
    microParse (cleanContent ("\x7b\"a\": 1\x7d oops".data)) = none ∧
    (cleanContent ("\x7b\"a\": 1\x7d oops".data)).contains '\x7b' = true ∧
    (tryParseContent microParse ("\x7b\"a\": 1\x7d oops".data) =
      (if Nat.findGreatest
          (goodEnd microParse (cleanContent ("\x7b\"a\": 1\x7d oops".data))
            ((cleanContent ("\x7b\"a\": 1\x7d oops".data)).findIdx fun c => c = '\x7b'))
          ((cleanContent ("\x7b\"a\": 1\x7d oops".data)).length - 1) = 0 then
        none
      else
        microParse (listSlice (cleanContent ("\x7b\"a\": 1\x7d oops".data))
            ((cleanContent ("\x7b\"a\": 1\x7d oops".data)).findIdx fun c => c = '\x7b')
            (Nat.findGreatest
              (goodEnd microParse (cleanContent ("\x7b\"a\": 1\x7d oops".data))
                ((cleanContent ("\x7b\"a\": 1\x7d oops".data)).findIdx fun c => c = '\x7b'))
              ((cleanContent ("\x7b\"a\": 1\x7d oops".data)).length - 1) + 1))) ∧
    (∀ k,
      Nat.findGreatest
          (goodEnd microParse (cleanContent ("\x7b\"a\": 1\x7d oops".data))
            ((cleanContent ("\x7b\"a\": 1\x7d oops".data)).findIdx fun c => c = '\x7b'))
          ((cleanContent ("\x7b\"a\": 1\x7d oops".data)).length - 1) < k →
      k ≤ (cleanContent ("\x7b\"a\": 1\x7d oops".data)).length - 1 →
      ¬ goodEnd microParse (cleanContent ("\x7b\"a\": 1\x7d oops".data))
          ((cleanContent ("\x7b\"a\": 1\x7d oops".data)).findIdx fun c => c = '\x7b') k) ∧
    (Nat.findGreatest
        (goodEnd microParse (cleanContent ("\x7b\"a\": 1\x7d oops".data))
          ((cleanContent ("\x7b\"a\": 1\x7d oops".data)).findIdx fun c => c = '\x7b'))
        ((cleanContent ("\x7b\"a\": 1\x7d oops".data)).length - 1) ≠ 0 →
      goodEnd microParse (cleanContent ("\x7b\"a\": 1\x7d oops".data))
        ((cleanContent ("\x7b\"a\": 1\x7d oops".data)).findIdx fun c => c = '\x7b')
        (Nat.findGreatest
          (goodEnd microParse (cleanContent ("\x7b\"a\": 1\x7d oops".data))
            ((cleanContent ("\x7b\"a\": 1\x7d oops".data)).findIdx fun c => c = '\x7b'))
          ((cleanContent ("\x7b\"a\": 1\x7d oops".data)).length - 1)))) :=
  ⟨by decide, by decide,
   c6_partial_recovery microParse ("\x7b\"a\": 1\x7d oops".data)
     (by decide) (by decide)⟩

/-- C4 amended, witness at concrete strings. -/
theorem c4_amended_witness :
    generate_key "p" "m2" ≠ generate_key "p" "m" ∧
    (CacheManager.get (CacheManager.set [] "p" "m" "r" 0) "p" "m" =
        some ⟨"r", 0⟩ ∧
      CacheManager.get (CacheManager.set [] "p" "m2" "r2" 1) "p" "m" =
        CacheManager.get ([] : Cache) "p" "m" ∧
      CacheManager.get ([] : Cache) "p" "m" = none) :=
  ⟨by decide, c4_amended [] "m" "p" "r" "m2" "p" "r2" 0 1 (by decide)⟩
